import Mathlib

/-!
# Verification of the survivalvolume table-extraction and survival-transform core

Shallow embedding of `survivalvolume/parse.py` and `survivalvolume/plot.py`.

Modelling conventions:
* a spreadsheet cell is `Option Val` where `none` models a NaN/null cell and
  `Val` is either a string or an (exact, rational) number;
* pandas DataFrames are modelled positionally: `DF` carries its index labels,
  column labels and a row-major data matrix.  The DataFrames reaching the
  embedded functions have ascending, duplicate-free integer row labels, for
  which pandas label-based slicing (`.loc`, inclusive of both endpoints)
  coincides with positional slicing;
* floating point values are modelled as `ℚ`; a float NaN is modelled as
  `none : Option ℚ`.  Operations that produce NaN in numpy/pandas
  (mean of an empty array, standard deviation with `ddof=1` of fewer than two
  values) return `none`;
* the external statistics routines `numpy.sqrt` and the Student-t interval
  half-width multiplier `scipy.stats.t.ppf((1+ci)/2, df)` are irrational-valued
  library functions; they are passed in as explicit function parameters
  (`sqrtF`, `tq`), so every theorem about the repository's own code holds for
  an arbitrary implementation of them;
* fallible Python code (KeyError, IndexError, ...) is embedded in
  `Except String`.
-/

set_option autoImplicit false

namespace SurvivalVolume

/-- A spreadsheet cell value: a string or a number (pandas cells are
heterogeneously typed). -/
inductive Val where
  | str : String → Val
  | num : ℚ → Val
deriving DecidableEq, Repr

/-- A cell: `none` models an empty/NaN cell. -/
abbrev Cell := Option Val

/-- One spreadsheet row. -/
abbrev Row := List Cell

/-- `data.isnull().all(axis=1)` for one row: every cell is null. -/
def isNullRow (r : Row) : Bool := r.all (·.isNone)

/-! ## `parse.split_on_nans`

```python
def split_on_nans(data):
    result = []
    null_lines = data[data.isnull().all(axis=1) == True].index
    start = 0
    for line_index in sorted(null_lines):
        data_subset = data.loc[start:line_index]
        result.append(data_subset)
        start = line_index+1
    return result
```

`data.loc[start:line_index]` is pandas label slicing and is inclusive of both
endpoints, so every emitted block *includes* its terminating all-null row
(the repository's own `test_split_on_nans` checks this: `result[4]` ends with
the all-NaN row 10).  After the loop nothing is appended, so rows after the
last all-null row are never emitted.  With ascending contiguous integer
labels, the loop is equivalent to the following accumulator recursion. -/

/-- Accumulator recursion equivalent to the `split_on_nans` loop: `acc` holds
the rows seen since the previous all-null row (`start..line_index-1`); at each
all-null row, `acc ++ [separator]` is emitted (the `.loc` slice is inclusive);
leftover rows in `acc` when the input ends are discarded, exactly as the
Python loop discards rows after the last `line_index`. -/
def splitOnNansAux (acc : List Row) : List Row → List (List Row)
  | [] => []
  | r :: rs =>
    if isNullRow r then (acc ++ [r]) :: splitOnNansAux [] rs
    else splitOnNansAux (acc ++ [r]) rs

/-- `parse.split_on_nans`. -/
def split_on_nans (g : List Row) : List (List Row) := splitOnNansAux [] g

/-- The rows strictly after the last all-null row of the grid (the whole grid
when it has no all-null row).  These are exactly the rows the `split_on_nans`
loop never emits. -/
def trailingSuffix : List Row → List Row
  | [] => []
  | r :: rs =>
    if rs.any isNullRow then trailingSuffix rs
    else if isNullRow r then rs
    else r :: trailingSuffix rs

lemma splitOnNansAux_eq_nil_of_no_null {g : List Row} (h : g.any isNullRow = false) :
    ∀ acc, splitOnNansAux acc g = [] := by
  induction g with
  | nil => intro acc; rfl
  | cons r rs ih =>
    intro acc
    simp only [List.any_cons, Bool.or_eq_false_iff] at h
    simp only [splitOnNansAux, h.1, Bool.false_eq_true, if_false]
    exact ih h.2 _

lemma trailingSuffix_of_no_null {g : List Row} (h : g.any isNullRow = false) :
    trailingSuffix g = g := by
  induction g with
  | nil => rfl
  | cons r rs ih =>
    simp only [List.any_cons, Bool.or_eq_false_iff] at h
    simp only [trailingSuffix, h.2, Bool.false_eq_true, if_false, h.1]
    rw [ih h.2]

lemma splitOnNansAux_flatten (g : List Row) :
    ∀ acc, (splitOnNansAux acc g).flatten ++ trailingSuffix g =
      if g.any isNullRow then acc ++ g else g := by
  induction g with
  | nil => intro acc; simp [splitOnNansAux, trailingSuffix]
  | cons r rs ih =>
    intro acc
    cases hr : isNullRow r with
    | true =>
      simp only [splitOnNansAux, hr, if_true, List.flatten_cons, trailingSuffix,
        List.any_cons, Bool.true_or]
      cases hrs : rs.any isNullRow with
      | true =>
        rw [if_pos rfl, List.append_assoc, List.append_assoc, ih [], if_pos hrs]
        simp
      | false =>
        simp only [Bool.false_eq_true, if_false, if_pos rfl]
        rw [splitOnNansAux_eq_nil_of_no_null hrs]
        simp
    | false =>
      simp only [splitOnNansAux, hr, Bool.false_eq_true, if_false, trailingSuffix,
        List.any_cons]
      cases hrs : rs.any isNullRow with
      | true =>
        rw [if_pos rfl, ih, if_pos hrs]
        simp
      | false =>
        rw [splitOnNansAux_eq_nil_of_no_null hrs]
        simp only [Bool.false_eq_true, if_false, List.flatten_nil, List.nil_append,
          Bool.or_false]
        rw [trailingSuffix_of_no_null hrs]

lemma split_on_nans_flatten (g : List Row) :
    (split_on_nans g).flatten ++ trailingSuffix g = g := by
  have h := splitOnNansAux_flatten g []
  cases hg : g.any isNullRow with
  | true => rw [split_on_nans, h, if_pos hg]; rfl
  | false =>
    rw [split_on_nans, splitOnNansAux_eq_nil_of_no_null hg]
    simpa using trailingSuffix_of_no_null hg

lemma mem_splitOnNansAux_getLast {g : List Row} :
    ∀ acc b, b ∈ splitOnNansAux acc g →
      ∃ r, b.getLast? = some r ∧ isNullRow r = true := by
  induction g with
  | nil => intro acc b h; simp [splitOnNansAux] at h
  | cons r rs ih =>
    intro acc b h
    by_cases hr : isNullRow r
    · simp only [splitOnNansAux, hr, if_true, List.mem_cons] at h
      rcases h with h | h
      · subst h
        exact ⟨r, by simp, hr⟩
      · exact ih _ _ h
    · simp only [splitOnNansAux, hr, Bool.false_eq_true, if_false] at h
      exact ih _ _ h

/-! ## `parse.fixed_length_alternate_steps`

```python
def fixed_length_alternate_steps(start,length,step1,step2):
    result = []
    x=start
    result.append(x)
    second_step = False
    while len(result) < length:
        if second_step:
            x += step2
        else:
            x += step1
        result.append(x)
        second_step = not second_step
    return result
```

`start` is appended before the loop, so the result always contains at least
one element; the loop then runs `max 0 (length - 1)` times, alternating the
two step sizes starting with `step1`. -/

/-- The while loop of `fixed_length_alternate_steps`: emit `n` further values
starting from current value `x`, using `step2` when `secondStep` is set. -/
def altStepsAux (step1 step2 : ℤ) : ℕ → ℤ → Bool → List ℤ
  | 0, _, _ => []
  | n + 1, x, secondStep =>
    let x' := x + (if secondStep then step2 else step1)
    x' :: altStepsAux step1 step2 n x' (!secondStep)

/-- `parse.fixed_length_alternate_steps` (the `length` argument is a Python
int; the loop executes `length - 1` times when `length ≥ 1` and zero times
otherwise, which truncated ℕ subtraction reproduces). -/
def fixed_length_alternate_steps (start : ℤ) (length : ℕ) (step1 step2 : ℤ) :
    List ℤ :=
  start :: altStepsAux step1 step2 (length - 1) start false

lemma altStepsAux_closed (step1 step2 : ℤ) :
    ∀ (n : ℕ) (x : ℤ) (b : Bool),
      altStepsAux step1 step2 n x b =
        (List.range n).map (fun i =>
          if b then x + ((i + 2) / 2 : ℕ) * step2 + ((i + 1) / 2 : ℕ) * step1
          else x + ((i + 2) / 2 : ℕ) * step1 + ((i + 1) / 2 : ℕ) * step2) := by
  intro n
  induction n with
  | zero => intro x b; rfl
  | succ n ih =>
    intro x b
    rw [List.range_succ_eq_map, List.map_cons, List.map_map]
    cases b with
    | false =>
      simp only [altStepsAux, Bool.false_eq_true, if_false]
      rw [ih]
      refine congrArg₂ List.cons (by norm_num) ?_
      refine List.map_congr_left fun i _ => ?_
      simp only [Function.comp_apply, Bool.not_false, Bool.false_eq_true, if_false,
        if_true, Nat.succ_eq_add_one]
      have h1 : (i + 1 + 2) / 2 = (i + 1) / 2 + 1 := by omega
      have h2 : (i + 1 + 1) / 2 = (i + 2) / 2 := by omega
      rw [h1, h2]
      push_cast
      ring
    | true =>
      simp only [altStepsAux, if_true]
      rw [ih]
      refine congrArg₂ List.cons (by norm_num) ?_
      refine List.map_congr_left fun i _ => ?_
      simp only [Function.comp_apply, Bool.not_true, Bool.false_eq_true, if_false,
        if_true, Nat.succ_eq_add_one]
      have h1 : (i + 1 + 2) / 2 = (i + 1) / 2 + 1 := by omega
      have h2 : (i + 1 + 1) / 2 = (i + 2) / 2 := by omega
      rw [h1, h2]
      push_cast
      ring

/-! ## Claims C4, C6 and C8 -/

/-- C4 counterexample: for the one-row grid `[[1]]` (no separator rows), the
blocks of `split_on_nans` sum to 0 rows and 0 separator rows are consumed, yet
the grid has 1 row — the claimed accounting equation fails because rows after
the last separator (here: the whole grid) are discarded by the loop. -/
theorem split_on_nans_row_accounting_fails :
    ((split_on_nans [[some (Val.num 1)]]).map List.length).sum +
        ([[some (Val.num 1)]].filter isNullRow).length ≠
      ([[some (Val.num 1)]] : List Row).length := by decide

/-- C4 (amended): the blocks of `split_on_nans`, concatenated in order, are
exactly the rows of the grid up to and including the last all-null separator
row (each separator row is contained in the block it terminates); the rows
strictly after the last separator are discarded.  Hence the block lengths sum
to the grid length minus the number of trailing rows, no row is duplicated,
and no row is lost other than the trailing ones. -/
theorem split_on_nans_row_accounting (g : List Row) :
    (split_on_nans g).flatten ++ trailingSuffix g = g ∧
      ((split_on_nans g).map List.length).sum + (trailingSuffix g).length =
        g.length := by
  refine ⟨split_on_nans_flatten g, ?_⟩
  have h := congrArg List.length (split_on_nans_flatten g)
  simpa [List.length_append, List.length_flatten] using h

/-- C6 counterexample: in the grid `[[1], sep, [2]]` whose last row `[2]` is not
a separator, `split_on_nans` returns only the single block `[[1], sep]`; the
trailing content `[[2]]` is not returned as the last block (it is dropped). -/
theorem split_on_nans_trailing_not_returned :
    split_on_nans [[some (Val.num 1)], [none], [some (Val.num 2)]] =
        [[[some (Val.num 1)], [(none : Cell)]]] ∧
      (split_on_nans [[some (Val.num 1)], [none], [some (Val.num 2)]]).getLast? ≠
        some [[some (Val.num 2)]] := by decide

/-- C6 (amended): `split_on_nans` never returns trailing content that is not
followed by a separator row: a grid with no separator row yields no blocks at
all, and every returned block ends with a separator (all-null) row. -/
theorem split_on_nans_blocks_end_with_separator (g : List Row) :
    (g.any isNullRow = false → split_on_nans g = []) ∧
      ∀ b ∈ split_on_nans g, ∃ r, b.getLast? = some r ∧ isNullRow r = true :=
  ⟨fun h => splitOnNansAux_eq_nil_of_no_null h [],
   fun b hb => mem_splitOnNansAux_getLast [] b hb⟩

/-- C6 witness: concrete instances of the amended theorem — a separator-free
grid yields no blocks, and the unique block of `[[NaN]]` ends with a
separator row. -/
theorem split_on_nans_blocks_end_with_separator_witness :
    split_on_nans [[some (Val.num 3)]] = [] ∧
      ∃ r, ([[(none : Cell)]] : List Row).getLast? = some r ∧
        isNullRow r = true :=
  ⟨(split_on_nans_blocks_end_with_separator [[some (Val.num 3)]]).1 (by decide),
   (split_on_nans_blocks_end_with_separator [[none]]).2 [[none]] (by decide)⟩

/-- C8 counterexample: with `length = 0`, `fixed_length_alternate_steps`
returns the one-element list `[start]`, not a sequence of exactly `length = 0`
values (the first value is appended before the loop's length check). -/
theorem fixed_length_alternate_steps_zero_length :
    (fixed_length_alternate_steps 1 0 3 4).length ≠ 0 := by decide

/-- C8 (amended): `fixed_length_alternate_steps start length step1 step2`
returns `max 1 length` values (exactly `length` whenever `length ≥ 1`, but a
single `[start]` when `length = 0`), whose first value is `start` and whose
successive increments alternate `step1, step2, step1, …` beginning with
`step1` — equivalently the `i`-th value is
`start + ⌈i/2⌉·step1 + ⌊i/2⌋·step2`; in particular the three documented
examples hold. -/
theorem fixed_length_alternate_steps_spec :
    (∀ (start : ℤ) (length : ℕ) (step1 step2 : ℤ),
      fixed_length_alternate_steps start length step1 step2 =
        (List.range (max 1 length)).map
          (fun i => start + ((i + 1) / 2 : ℕ) * step1 + ((i / 2 : ℕ) : ℤ) * step2)) ∧
      fixed_length_alternate_steps 1 12 3 4 =
        [1, 4, 8, 11, 15, 18, 22, 25, 29, 32, 36, 39] ∧
      fixed_length_alternate_steps 7 2 3 4 = [7, 10] ∧
      fixed_length_alternate_steps 1 10 2 (-1) =
        [1, 3, 2, 4, 3, 5, 4, 6, 5, 7] := by
  refine ⟨?_, by decide, by decide, by decide⟩
  intro start length step1 step2
  rw [fixed_length_alternate_steps, altStepsAux_closed]
  have hmax : max 1 length = (length - 1) + 1 := by omega
  rw [hmax, List.range_succ_eq_map, List.map_cons, List.map_map]
  refine congrArg₂ List.cons (by norm_num) ?_
  refine List.map_congr_left fun i _ => ?_
  simp only [Function.comp_apply, Bool.false_eq_true, if_false,
    Nat.succ_eq_add_one]

/-! ## `plot.get_survival_status` and `plot.volume_to_survival`

```python
def get_survival_status(tv_series, endpoint=700):
    tv_series = tv_series.dropna()
    observed = True
    try:
        if tv_series.iloc[-1] < endpoint:
            observed = False
        return tv_series.index[-1], observed
    except:
        print(tv_series)
        raise

def volume_to_survival(tv_data, endpoint=700):
    survival = pandas.DataFrame(
                        {x:get_survival_status(tv_data[x],endpoint=endpoint) \
                        for x in tv_data if tv_data[x].any()}
                        ).T
    survival.columns=['Time','Observed']
    return survival
```
-/

/-- A pandas Series of volume measurements: (time label, value) pairs in index
order; `none` is a NaN measurement. -/
abbrev Series := List (ℚ × Option ℚ)

/-- `tv_series.dropna()`: the non-missing entries, keeping their labels. -/
def seriesDropna (s : Series) : List (ℚ × ℚ) :=
  s.filterMap fun p => p.2.map fun v => (p.1, v)

/-- `plot.get_survival_status`.  On an all-NaN (or empty) series,
`tv_series.iloc[-1]` raises an IndexError which the bare `except` re-raises
after printing; this is the `.error` case. -/
def get_survival_status (s : Series) (endpoint : ℚ) : Except String (ℚ × Bool) :=
  match (seriesDropna s).getLast? with
  | none => .error "IndexError: single positional indexer is out-of-bounds"
  | some (i, v) => .ok (i, !decide (v < endpoint))

/-- A cleaned tumour-volume table: time labels (`index`), individual names
(`cols`) and the row-major measurement matrix (`rows`), one row per time
point, `none` marking a missing measurement. -/
structure TvTable where
  index : List ℚ
  cols : List String
  rows : List (List (Option ℚ))
deriving DecidableEq, Repr

/-- The measurement column of individual `j` (one cell per time point). -/
def colValues (tv : TvTable) (j : ℕ) : List (Option ℚ) :=
  tv.rows.map fun r => (r.get? j).getD none

/-- The per-individual series `tv_data[x]` for the individual in position `j`:
the table's time index paired with that individual's measurements. -/
def colSeries (tv : TvTable) (j : ℕ) : Series :=
  tv.index.zip (colValues tv j)

/-- pandas `Series.any()` with its default `skipna=True`: true iff some
non-missing value is truthy, and a float is truthy iff it is nonzero.  This is
the `if tv_data[x].any()` guard of `volume_to_survival`. -/
def seriesAny (cells : List (Option ℚ)) : Bool :=
  cells.any fun c => match c with
    | some v => decide (v ≠ 0)
    | none => false

/-- The name of the individual in column position `j`. -/
def colName (tv : TvTable) (j : ℕ) : String := (tv.cols.get? j).getD ""

/-- The dict comprehension of `volume_to_survival` over the given column
positions: one `(individual, (Time, Observed))` record per column, with any
exception from `get_survival_status` propagating. -/
def survivalEntries (tv : TvTable) (endpoint : ℚ) :
    List ℕ → Except String (List (String × ℚ × Bool))
  | [] => .ok []
  | j :: js =>
    match get_survival_status (colSeries tv j) endpoint with
    | .error e => .error e
    | .ok r =>
      match survivalEntries tv endpoint js with
      | .error e => .error e
      | .ok rest => .ok ((colName tv j, r) :: rest)

/-- `plot.volume_to_survival`: iterate the columns in table order, keeping
those whose series satisfies `Series.any()`; then
`survival.columns = ['Time','Observed']` renames the two columns of the
transposed frame.  When *no* column passes the guard the comprehension is
empty, `pandas.DataFrame({}).T` has zero columns, and assigning the
two-element column list raises `ValueError: Length mismatch`, so the empty
case is an error, not an empty result. -/
def volume_to_survival (tv : TvTable) (endpoint : ℚ) :
    Except String (List (String × ℚ × Bool)) :=
  match survivalEntries tv endpoint
      ((List.range tv.cols.length).filter fun j => seriesAny (colValues tv j)) with
  | .error e => .error e
  | .ok entries =>
    if entries.isEmpty then
      .error "ValueError: Length mismatch: Expected axis has 0 elements, new values have 2 elements"
    else .ok entries

/-! ## `plot.TumourVolumePlot._calc_t_ci` and `add_interval`

```python
def _calc_t_ci(self, tv_table, ci=0.95):
    uppers = []
    lowers = []
    means = []
    for entry in tv_table.T:
        data = tv_table.T[entry].dropna()
        mean = np.mean(data)
        (lower,upper) = scipy.stats.t.interval(0.95,
                            df=len(data)-1,
                            loc=mean,
                            scale=np.std(data,ddof=1) / np.sqrt(len(data)),
                            )
        uppers.append(upper)
        lowers.append(lower)
        means.append(mean)
    cis = pandas.DataFrame({'mean':means,
                          'lower bound':[max(0,x) for x in lowers], #limit to +ve
                          'upper bound':uppers,
        }).dropna()
    cis.index = tv_table.index[:len(cis.index)]
    return cis
```

The loop ranges over the columns of `tv_table.T`, i.e. the rows (time points)
of `tv_table`, in order.  Float NaN is modelled by `none`: `np.mean` of an
empty array is NaN, and `np.std(..., ddof=1)` of fewer than two values is NaN
(0/0), which propagates through `scipy.stats.t.interval` to both bounds.  For
`n ≥ 2` the scipy call returns
`loc ± t.ppf((1+level)/2, df) * scale` with finite bounds; the half-width
multiplier `t.ppf((1+level)/2, df)` is the abstract parameter `tq level df`,
and `np.sqrt` is the abstract parameter `sqrtF`.  Note the first argument of
the `t.interval` call is the literal `0.95`, not the method's `ci` argument. -/

/-- Python `max(0, x)` where `x` is a float that may be NaN: NaN comparisons
are all false, so `max` keeps its first argument `0`; otherwise it is the
usual maximum.  This is the `[max(0,x) for x in lowers]` step. -/
def pyMax0 : Option ℚ → ℚ
  | none => 0
  | some x => max 0 x

/-- One iteration of the `_calc_t_ci` loop on the cells of one time point:
`(mean, lower, upper)` with `none` for the NaN cases (`n = 0`: mean of an
empty array; `n = 1`: `ddof=1` standard deviation is 0/0). -/
def rowStats (sqrtF : ℚ → ℚ) (tq : ℚ → ℕ → ℚ) (level : ℚ)
    (cells : List (Option ℚ)) : Option ℚ × Option ℚ × Option ℚ :=
  let data := cells.filterMap id
  let n := data.length
  if n = 0 then (none, none, none)
  else
    let mean := data.sum / (n : ℚ)
    if n = 1 then (some mean, none, none)
    else
      let scale :=
        sqrtF ((data.map fun x => (x - mean) ^ 2).sum / ((n : ℚ) - 1)) /
          sqrtF (n : ℚ)
      let q := tq level (n - 1)
      (some mean, some (mean - q * scale), some (mean + q * scale))

/-- The `.dropna()` on the assembled `cis` frame: a row is kept iff none of
mean / lower bound / upper bound is NaN.  The lower bound has already passed
through `max(0, ·)` and so is never NaN (`pyMax0` is total). -/
def keepCiRow : Option ℚ × Option ℚ × Option ℚ → Option (ℚ × ℚ × ℚ)
  | (some m, lo, some hi) => some (m, pyMax0 lo, hi)
  | _ => none

/-- The surviving `(mean, lower, upper)` record of one time point, if any. -/
def tStats (sqrtF : ℚ → ℚ) (tq : ℚ → ℕ → ℚ) (cells : List (Option ℚ)) :
    Option (ℚ × ℚ × ℚ) :=
  keepCiRow (rowStats sqrtF tq (95 / 100) cells)

/-- `plot.TumourVolumePlot._calc_t_ci`: per-row stats (the loop), then
`.dropna()` (the `keepCiRow` filter), then the index assignment
`cis.index = tv_table.index[:len(cis.index)]`, which relabels the surviving
rows with the first `len(cis)` labels of the input index. -/
def calc_t_ci (sqrtF : ℚ → ℚ) (tq : ℚ → ℕ → ℚ) (tv : TvTable) (ci : ℚ) :
    List (ℚ × ℚ × ℚ × ℚ) :=
  let kept := (tv.rows.map (rowStats sqrtF tq (95 / 100))).filterMap keepCiRow
  (tv.index.take kept.length).zip kept

/-- pandas `row.count()`: the number of non-missing cells of a row. -/
def countNonMissing (r : List (Option ℚ)) : ℕ := (r.filterMap id).length

/-- `tv_table[tv_table.count(axis=1) > threshold]`: keep the time points with
strictly more than `threshold` non-missing observations. -/
def thresholdFilter (tv : TvTable) (threshold : ℕ) : TvTable :=
  let pairs := (tv.index.zip tv.rows).filter fun p =>
    decide (threshold < countNonMissing p.2)
  ⟨pairs.map Prod.fst, tv.cols, pairs.map Prod.snd⟩

/-- The interval table computed by `plot.TumourVolumePlot.add_interval`
(`self._calc_t_ci(tv_table[tv_table.count(axis=1) > threshold], ci=ci)`); the
subsequent drawing calls are presentation-layer side effects outside this
embedding. -/
def add_interval_cis (sqrtF : ℚ → ℚ) (tq : ℚ → ℕ → ℚ) (tv : TvTable)
    (threshold : ℕ) (ci : ℚ) : List (ℚ × ℚ × ℚ × ℚ) :=
  calc_t_ci sqrtF tq (thresholdFilter tv threshold) ci

/-! ## Claims C1 and C3 -/

lemma getLast_seriesDropna_of_any {s : Series}
    (h : (s.any fun p => p.2.isSome) = true) :
    ∃ i v, (seriesDropna s).getLast? = some (i, v) := by
  have hne : seriesDropna s ≠ [] := by
    rcases List.any_eq_true.mp h with ⟨p, hp, hsome⟩
    rcases Option.isSome_iff_exists.mp hsome with ⟨v, hv⟩
    intro hnil
    have hmem : (p.1, v) ∈ seriesDropna s :=
      List.mem_filterMap.mpr ⟨p, hp, by rw [hv]; rfl⟩
    rw [hnil] at hmem
    exact absurd hmem (List.not_mem_nil _)
  rcases Option.isSome_iff_exists.mp (List.getLast?_isSome.mpr hne) with ⟨⟨i, v⟩, hl⟩
  exact ⟨i, v, hl⟩

lemma get_survival_status_ok {s : Series} (endpoint : ℚ)
    (h : (s.any fun p => p.2.isSome) = true) :
    ∃ i v, (seriesDropna s).getLast? = some (i, v) ∧
      get_survival_status s endpoint = .ok (i, !decide (v < endpoint)) := by
  rcases getLast_seriesDropna_of_any h with ⟨i, v, hl⟩
  refine ⟨i, v, hl, ?_⟩
  unfold get_survival_status
  rw [hl]

/-- C1: for every per-individual series with at least one non-missing value
and every numeric endpoint, `get_survival_status` drops the missing values,
returns the last remaining time label as the observed time, and returns
`observed = false` exactly when the last remaining value is strictly below the
endpoint; in particular `[100,200,750,NaN]` with endpoint 700 gives
`(2, true)`, `[100,200,NaN]` gives `(1, false)`, and `[100,200,750]` with
endpoint 1000 gives `(2, false)`. -/
theorem get_survival_status_spec :
    (∀ (s : Series) (endpoint : ℚ), (s.any fun p => p.2.isSome) = true →
      ∃ i v b, (seriesDropna s).getLast? = some (i, v) ∧
        get_survival_status s endpoint = .ok (i, b) ∧ (b = false ↔ v < endpoint)) ∧
      get_survival_status
        [(0, some 100), (1, some 200), (2, some 750), (3, none)] 700 =
        .ok (2, true) ∧
      get_survival_status [(0, some 100), (1, some 200), (2, none)] 700 =
        .ok (1, false) ∧
      get_survival_status [(0, some 100), (1, some 200), (2, some 750)] 1000 =
        .ok (2, false) := by
  refine ⟨?_, by rfl, by rfl, by rfl⟩
  intro s endpoint h
  rcases get_survival_status_ok endpoint h with ⟨i, v, hl, hok⟩
  exact ⟨i, v, _, hl, hok, by simp⟩

/-- C1 witness: the general statement applied to the concrete series
`[100, 200, NaN]` with the default endpoint 700. -/
theorem get_survival_status_spec_witness :
    ∃ i v b,
      (seriesDropna [((0 : ℚ), some (100 : ℚ)), (1, some 200), (2, none)]).getLast? =
        some (i, v) ∧
      get_survival_status [((0 : ℚ), some (100 : ℚ)), (1, some 200), (2, none)] 700 =
        .ok (i, b) ∧ (b = false ↔ v < 700) :=
  get_survival_status_spec.1 [((0 : ℚ), some (100 : ℚ)), (1, some 200), (2, none)]
    700 (by decide)

lemma seriesAny_eq_any_nonzero (cells : List (Option ℚ)) :
    seriesAny cells = cells.any fun c => decide (c.getD 0 ≠ 0) := by
  unfold seriesAny
  congr 1
  funext c
  cases c <;> simp

lemma any_snd_zip {α β : Type} (p : β → Bool) :
    ∀ (bs : List β) (as : List α), bs.length ≤ as.length → bs.any p = true →
      (as.zip bs).any (fun x => p x.2) = true := by
  intro bs
  induction bs with
  | nil => intro as _ hb; simp at hb
  | cons b bs ih =>
    intro as h hb
    cases as with
    | nil => simp at h
    | cons a as =>
      rw [List.any_cons, Bool.or_eq_true] at hb
      rw [List.zip_cons_cons, List.any_cons, Bool.or_eq_true]
      rcases hb with hb | hb
      · exact Or.inl hb
      · exact Or.inr (ih as (by simpa using h) hb)

lemma survivalEntries_ok (tv : TvTable) (endpoint : ℚ) :
    ∀ js : List ℕ,
      (∀ j ∈ js, ((colSeries tv j).any fun p => p.2.isSome) = true) →
      ∃ l, survivalEntries tv endpoint js = .ok l ∧
        l.map Prod.fst = js.map (colName tv) := by
  intro js
  induction js with
  | nil => intro _; exact ⟨[], rfl, rfl⟩
  | cons j js ih =>
    intro hall
    rcases get_survival_status_ok endpoint (hall j (by simp)) with ⟨i, v, _, hok⟩
    rcases ih (fun x hx => hall x (by simp [hx])) with ⟨l, hl, hmap⟩
    refine ⟨(colName tv j, i, !decide (v < endpoint)) :: l, ?_, by simp [hmap]⟩
    simp only [survivalEntries, hok, hl]

/-- C3 counterexample: the individual `a` has the non-missing measurement 0 at
the table's only time point, yet the result of `volume_to_survival` contains
no record for it (only one for `b`): pandas `Series.any()` treats the float
0.0 as falsy, so a column whose non-missing values are all zero is excluded
even though it has non-missing values.  (The second individual `b` keeps the
comprehension non-empty, so the `survival.columns` assignment succeeds and the
call returns normally.) -/
theorem volume_to_survival_excludes_all_zero_column :
    (([some (0 : ℚ)] : List (Option ℚ)).any Option.isSome) = true ∧
      volume_to_survival ⟨[0], ["a", "b"], [[some 0, some 100]]⟩ 700 =
        .ok [("b", 0, false)] :=
  ⟨by decide, by rfl⟩

/-- C3 (amended): the result of `volume_to_survival` contains exactly those
individuals whose column has at least one non-missing **nonzero** value, in
column order: individuals with no non-missing values are excluded, but so is
any individual all of whose non-missing measurements are zero (pandas
`Series.any()` truthiness).  When no individual at all passes that guard the
function does not return an empty result: the two-element
`survival.columns = ['Time','Observed']` assignment on the resulting
zero-column frame raises a ValueError. -/
theorem volume_to_survival_membership (tv : TvTable) (endpoint : ℚ)
    (h : tv.rows.length ≤ tv.index.length) :
    (((List.range tv.cols.length).filter fun j =>
        (colValues tv j).any fun c => decide (c.getD 0 ≠ 0)) = [] →
      ∃ e, volume_to_survival tv endpoint = .error e) ∧
      (((List.range tv.cols.length).filter fun j =>
        (colValues tv j).any fun c => decide (c.getD 0 ≠ 0)) ≠ [] →
      ∃ l, volume_to_survival tv endpoint = .ok l ∧
        l.map Prod.fst =
          ((List.range tv.cols.length).filter fun j =>
            (colValues tv j).any fun c => decide (c.getD 0 ≠ 0)).map (colName tv)) := by
  have hfe : ((List.range tv.cols.length).filter fun j => seriesAny (colValues tv j)) =
      ((List.range tv.cols.length).filter fun j =>
        (colValues tv j).any fun c => decide (c.getD 0 ≠ 0)) :=
    List.filter_congr fun j _ => seriesAny_eq_any_nonzero (colValues tv j)
  have hall : ∀ j ∈ (List.range tv.cols.length).filter
      (fun j => seriesAny (colValues tv j)),
      ((colSeries tv j).any fun p => p.2.isSome) = true := by
    intro j hj
    have hany := (List.mem_filter.mp hj).2
    have h1 : (colValues tv j).any (fun c => c.isSome) = true := by
      rcases List.any_eq_true.mp hany with ⟨c, hc, hcv⟩
      refine List.any_eq_true.mpr ⟨c, hc, ?_⟩
      cases c
      · simp [seriesAny] at hcv
      · simp
    have hlen : (colValues tv j).length ≤ tv.index.length := by
      simpa [colValues] using h
    exact any_snd_zip _ _ _ hlen h1
  rcases survivalEntries_ok tv endpoint _ hall with ⟨l, hl, hmap⟩
  constructor
  · intro hnil
    have hlnil : l = [] := by
      have h0 : l.map Prod.fst = [] := by
        rw [hmap, hfe, hnil]
        rfl
      exact List.map_eq_nil_iff.mp h0
    refine ⟨"ValueError: Length mismatch: Expected axis has 0 elements, new values have 2 elements", ?_⟩
    unfold volume_to_survival
    rw [hl, hlnil]
    rfl
  · intro hne
    have hlne : l.isEmpty = false := by
      rcases hl0 : l with _ | ⟨a, l0⟩
      · exfalso
        apply hne
        rw [← hfe]
        have h0 : ((List.range tv.cols.length).filter fun j =>
            seriesAny (colValues tv j)).map (colName tv) = [] := by
          rw [← hmap, hl0]
          rfl
        exact List.map_eq_nil_iff.mp h0
      · rfl
    refine ⟨l, ?_, by rw [hmap, hfe]⟩
    unfold volume_to_survival
    rw [hl]
    simp [hlne]

/-- C3 witness: the amended theorem applied to a concrete two-individual
table in which only individual `a` has a nonzero measurement. -/
theorem volume_to_survival_membership_witness :
    ∃ l, volume_to_survival
        ⟨[0, 1], ["a", "b"], [[some 100, none], [none, none]]⟩ 700 = .ok l ∧
      l.map Prod.fst =
        ((List.range (TvTable.cols
            ⟨[0, 1], ["a", "b"], [[some 100, none], [none, none]]⟩).length).filter
          fun j => (colValues
            ⟨[0, 1], ["a", "b"], [[some 100, none], [none, none]]⟩ j).any
              fun c => decide (c.getD 0 ≠ 0)).map
          (colName ⟨[0, 1], ["a", "b"], [[some 100, none], [none, none]]⟩) :=
  (volume_to_survival_membership
    ⟨[0, 1], ["a", "b"], [[some 100, none], [none, none]]⟩ 700 (by decide)).2
    (by decide)

/-! ## Claims C2, C5 and C9 -/

/-- C2: the claim says `_calc_t_ci` computes the t-interval at level `ci`
(not at a fixed level).  In fact the scipy call passes the literal `0.95`: the
result is independent of the `ci` argument, and with a half-width multiplier
that returns the level itself, a call with `ci = 1/2` still produces the
`0.95`-level interval `mean ± (95/100)·scale`. -/
theorem calc_t_ci_ignores_ci :
    (∀ (sqrtF : ℚ → ℚ) (tq : ℚ → ℕ → ℚ) (tv : TvTable) (ci : ℚ),
      calc_t_ci sqrtF tq tv ci = calc_t_ci sqrtF tq tv (95 / 100)) ∧
      calc_t_ci (fun _ => 1) (fun level _ => level)
        ⟨[10], ["a", "b"], [[some 0, some 2]]⟩ (1 / 2) =
        [(10, 1, 1 / 20, 39 / 20)] := by
  refine ⟨fun _ _ _ _ => rfl, ?_⟩
  norm_num [calc_t_ci, rowStats, keepCiRow, pyMax0, List.filterMap_cons,
    List.filterMap_nil]

lemma length_filterMap_eq_length_filter {α β : Type} (f : α → Option β)
    (l : List α) :
    (l.filterMap f).length = (l.filter fun a => (f a).isSome).length := by
  induction l with
  | nil => rfl
  | cons a l ih =>
    cases hf : f a <;>
      simp [List.filterMap_cons, List.filter_cons, hf, ih]

lemma tStats_isSome (sqrtF : ℚ → ℚ) (tq : ℚ → ℕ → ℚ) (r : List (Option ℚ)) :
    (tStats sqrtF tq r).isSome = decide (2 ≤ (r.filterMap id).length) := by
  unfold tStats rowStats
  by_cases h0 : (r.filterMap id).length = 0
  · simp [h0, keepCiRow]
  · by_cases h1 : (r.filterMap id).length = 1
    · simp [h0, h1, keepCiRow]
    · have h2 : 2 ≤ (r.filterMap id).length := by omega
      simp [h0, h1, keepCiRow, h2]

/-- C5 counterexample: on the 3-time-point table with index `[0,1,2]` where the
middle time point has a single non-missing observation (so its interval row is
NaN and dropped), the surviving rows are those computed from times 0 and 2,
but `cis.index = tv_table.index[:len(cis.index)]` relabels them `[0,1]`: the
row computed from the time-2 observations is returned labelled `1`, so the
remaining rows do **not** keep their own time labels. -/
theorem calc_t_ci_relabels_dropped_rows :
    calc_t_ci (fun _ => 1) (fun _ _ => 1)
        ⟨[0, 1, 2], ["a", "b"], [[some 1, some 3], [some 5, none], [some 2, some 4]]⟩
        (95 / 100) = [(0, 2, 1, 3), (1, 3, 2, 4)] ∧
      (calc_t_ci (fun _ => 1) (fun _ _ => 1)
        ⟨[0, 1, 2], ["a", "b"], [[some 1, some 3], [some 5, none], [some 2, some 4]]⟩
        (95 / 100)).map Prod.fst ≠ [0, 2] := by
  constructor <;>
    norm_num [calc_t_ci, rowStats, keepCiRow, pyMax0, List.filterMap_cons,
      List.filterMap_nil]

/-- C5 (amended): the rows of `_calc_t_ci`'s result are, in input order,
exactly the statistics of the time points with at least two non-missing
observations (the others produce a NaN bound and are dropped), but the
surviving rows are relabelled with the **first k** labels of the input index
(`k` = number of surviving rows) rather than keeping their own time labels;
the labels therefore agree with the rows' own time points only when the
dropped time points form a suffix of the index. -/
theorem calc_t_ci_relabels_with_index_prefix (sqrtF : ℚ → ℚ) (tq : ℚ → ℕ → ℚ)
    (tv : TvTable) (ci : ℚ) (h : tv.rows.length ≤ tv.index.length) :
    (calc_t_ci sqrtF tq tv ci).map Prod.snd = tv.rows.filterMap (tStats sqrtF tq) ∧
      (calc_t_ci sqrtF tq tv ci).map Prod.fst =
        tv.index.take
          ((tv.rows.filter fun r => decide (2 ≤ (r.filterMap id).length)).length) ∧
      ∀ r, (tStats sqrtF tq r).isSome = decide (2 ≤ (r.filterMap id).length) := by
  have hkept : (tv.rows.map (rowStats sqrtF tq (95 / 100))).filterMap keepCiRow =
      tv.rows.filterMap (tStats sqrtF tq) := by
    rw [List.filterMap_map]
    rfl
  have hklen : (tv.rows.filterMap (tStats sqrtF tq)).length =
      (tv.rows.filter fun r => decide (2 ≤ (r.filterMap id).length)).length := by
    rw [length_filterMap_eq_length_filter]
    exact congrArg List.length (List.filter_congr fun r _ => tStats_isSome sqrtF tq r)
  have hlen2 : (tv.rows.filterMap (tStats sqrtF tq)).length ≤ tv.index.length :=
    le_trans (List.length_filterMap_le _ _) h
  refine ⟨?_, ?_, tStats_isSome sqrtF tq⟩
  · show ((tv.index.take _).zip _).map Prod.snd = _
    rw [hkept]
    apply List.map_snd_zip
    rw [List.length_take]
    have := hlen2
    omega
  · show ((tv.index.take _).zip _).map Prod.fst = _
    rw [hkept, ← hklen]
    apply List.map_fst_zip
    rw [List.length_take]
    omega

/-- C5 witness: the amended theorem applied to the concrete counterexample
table (index `[0,1,2]`, middle time point with one observation). -/
theorem calc_t_ci_relabels_with_index_prefix_witness :
    (calc_t_ci (fun _ => 1) (fun _ _ => 1)
        ⟨[0, 1, 2], ["a", "b"], [[some 1, some 3], [some 5, none], [some 2, some 4]]⟩
        (95 / 100)).map Prod.snd =
      (TvTable.rows
        ⟨[0, 1, 2], ["a", "b"], [[some 1, some 3], [some 5, none], [some 2, some 4]]⟩).filterMap
          (tStats (fun _ => 1) (fun _ _ => 1)) ∧
      (calc_t_ci (fun _ => 1) (fun _ _ => 1)
        ⟨[0, 1, 2], ["a", "b"], [[some 1, some 3], [some 5, none], [some 2, some 4]]⟩
        (95 / 100)).map Prod.fst =
        (TvTable.index
          ⟨[0, 1, 2], ["a", "b"], [[some 1, some 3], [some 5, none], [some 2, some 4]]⟩).take
          (((TvTable.rows
            ⟨[0, 1, 2], ["a", "b"], [[some 1, some 3], [some 5, none], [some 2, some 4]]⟩).filter
              fun r => decide (2 ≤ (r.filterMap id).length)).length) ∧
      ∀ r, (tStats (fun _ => (1 : ℚ)) (fun _ _ => (1 : ℚ)) r).isSome =
        decide (2 ≤ (r.filterMap id).length) :=
  calc_t_ci_relabels_with_index_prefix (fun _ => 1) (fun _ _ => 1)
    ⟨[0, 1, 2], ["a", "b"], [[some 1, some 3], [some 5, none], [some 2, some 4]]⟩
    (95 / 100) (by decide)

/-- C9: `add_interval` filters to the time points with strictly more than
`threshold` (i.e. at least `threshold + 1`) non-missing observations before
computing intervals, so (first conjunct) every label of the returned interval
table is the label of some time point meeting the threshold — failing time
points are dropped entirely, never NaN-filled (the result rows are plain
rationals by construction, so no NaN reaches a returned mean or bound) — and
(second conjunct) when every time point fails the threshold the result is the
empty interval set. -/
theorem add_interval_threshold_spec (sqrtF : ℚ → ℚ) (tq : ℚ → ℕ → ℚ)
    (tv : TvTable) (threshold : ℕ) (ci : ℚ) :
    (∀ p ∈ add_interval_cis sqrtF tq tv threshold ci,
        ∃ r, (p.1, r) ∈ tv.index.zip tv.rows ∧
          threshold + 1 ≤ countNonMissing r) ∧
      ((∀ q ∈ tv.index.zip tv.rows, countNonMissing q.2 < threshold + 1) →
        add_interval_cis sqrtF tq tv threshold ci = []) := by
  constructor
  · rintro ⟨t, stats⟩ hp
    simp only [add_interval_cis, calc_t_ci] at hp
    have h1 : t ∈ (thresholdFilter tv threshold).index :=
      List.take_subset _ _ (List.of_mem_zip hp).1
    simp only [thresholdFilter] at h1
    rcases List.mem_map.mp h1 with ⟨pair, hpair, hfst⟩
    have hmem := List.mem_filter.mp hpair
    refine ⟨pair.2, ?_, ?_⟩
    · rw [← hfst, Prod.mk.eta]
      exact hmem.1
    · have := of_decide_eq_true hmem.2
      omega
  · intro hall
    have hpairs : ((tv.index.zip tv.rows).filter fun q =>
        decide (threshold < countNonMissing q.2)) = [] := by
      rw [List.filter_eq_nil_iff]
      intro q hq
      simp only [decide_eq_true_eq]
      have := hall q hq
      omega
    simp [add_interval_cis, calc_t_ci, thresholdFilter, hpairs]

/-- C9 witness: a table whose only time point has one non-missing observation
fails the default threshold 2 everywhere, and the interval set is empty. -/
theorem add_interval_threshold_spec_witness :
    add_interval_cis (fun _ => 1) (fun _ _ => 1) ⟨[0], ["a"], [[some 1]]⟩ 2
      (95 / 100) = [] :=
  (add_interval_threshold_spec (fun _ => 1) (fun _ _ => 1) ⟨[0], ["a"], [[some 1]]⟩
    2 (95 / 100)).2 (by decide)

/-! ## `parse.clean_tv_table`

```python
def clean_tv_table(dirty_tv_table):
    tv_table = dirty_tv_table.copy()
    tv_table = tv_table.dropna(axis=1,how='all')
    tv_table = tv_table.dropna(axis=0,how='all')
    name = tv_table[1].iloc[0]
    tv_table.columns = tv_table.iloc[1]
    tv_table.index = tv_table['Day']
    tv_table = tv_table.iloc[2:,1:]
    tv_table = tv_table.drop('Mean',axis=1)
    return name,tv_table
```
-/

/-- A pandas DataFrame: row labels, column labels and the row-major cell
matrix.  Labels are themselves cell values (`Cell`), because `clean_tv_table`
promotes a data row to the column labels and a data column to the index. -/
structure DF where
  index : List Cell
  cols : List Cell
  data : List Row
deriving DecidableEq, Repr, Inhabited

/-- `df.dropna(axis=1, how='all')`: keep the columns with some non-null cell. -/
def dropNullCols (df : DF) : DF :=
  let keep := (List.range df.cols.length).filter fun j =>
    df.data.any fun r => ((r.get? j).getD none).isSome
  { index := df.index,
    cols := keep.map fun j => (df.cols.get? j).getD none,
    data := df.data.map fun r => keep.map fun j => (r.get? j).getD none }

/-- `df.dropna(axis=0, how='all')`: keep the rows with some non-null cell. -/
def dropNullRows (df : DF) : DF :=
  let pairs := (df.index.zip df.data).filter fun p => !isNullRow p.2
  { index := pairs.map Prod.fst, cols := df.cols, data := pairs.map Prod.snd }

/-- The positions of the columns labelled `l`. -/
def colPositions (df : DF) (l : Cell) : List ℕ :=
  (List.range df.cols.length).filter fun j =>
    decide ((df.cols.get? j).getD none = l)

/-- `df[l]`: column selection by label.  With exactly one matching column
pandas returns it as a Series; with no match it raises a KeyError.  With
duplicate matching labels pandas returns a two-dimensional DataFrame, on which
the subsequent scalar extraction / one-dimensional index assignment in
`clean_tv_table` fails, so the duplicate case is embedded as an error too. -/
def colByLabel (df : DF) (l : Cell) : Except String (List Cell) :=
  match colPositions df l with
  | [j] => .ok (df.data.map fun r => (r.get? j).getD none)
  | [] => .error "KeyError"
  | _ => .error "ValueError: duplicate column label"

/-- `df.iloc[nr:, nc:]`: drop the first `nr` rows and `nc` columns
(labels included). -/
def ilocDrop (df : DF) (nr nc : ℕ) : DF :=
  { index := df.index.drop nr,
    cols := df.cols.drop nc,
    data := (df.data.drop nr).map (List.drop nc) }

/-- `df.drop(l, axis=1)`: remove every column labelled `l`; KeyError when
there is none. -/
def dropColByLabel (df : DF) (l : Cell) : Except String DF :=
  if (colPositions df l).isEmpty then .error "KeyError"
  else
    let keep := (List.range df.cols.length).filter fun j =>
      decide ((df.cols.get? j).getD none ≠ l)
    .ok { index := df.index,
          cols := keep.map fun j => (df.cols.get? j).getD none,
          data := df.data.map fun r => keep.map fun j => (r.get? j).getD none }

/-- `parse.clean_tv_table` on the copy of its argument (the first statement is
`tv_table = dirty_tv_table.copy()`; mutation is treated in
`clean_tv_table_callerView`).  All pandas failure points (KeyError on a
missing label-1 or `Day` or `Mean` column, IndexError on `iloc` past the end)
are `.error` values that propagate to the caller. -/
def clean_tv_table (dirty : DF) : Except String (Cell × DF) :=
  let t2 := dropNullRows (dropNullCols dirty)
  match colByLabel t2 (some (Val.num 1)) with
  | .error e => .error e
  | .ok c1 =>
    match c1.head? with
    | none => .error "IndexError: iloc[0] on an empty frame"
    | some name =>
      match t2.data.get? 1 with
      | none => .error "IndexError: iloc[1] out of bounds"
      | some hdr =>
        let t3 : DF := { t2 with cols := hdr }
        match colByLabel t3 (some (Val.str "Day")) with
        | .error e => .error e
        | .ok dayCol =>
          let t4 : DF := { t3 with index := dayCol }
          let t5 := ilocDrop t4 2 1
          match dropColByLabel t5 (some (Val.str "Mean")) with
          | .error e => .error e
          | .ok t6 => .ok (name, t6)

/-- The caller-visible semantics of one call `clean_tv_table(dirty_tv_table)`:
the returned value together with the object the caller's `dirty_tv_table`
refers to after the call.  The transcription tracks which object each Python
statement targets: `tv_table = dirty_tv_table.copy()` severs aliasing, the
`dropna`/`iloc`/`drop` calls (without `inplace=True`) return fresh frames that
are rebound to the local name `tv_table`, and the two attribute assignments
`tv_table.columns = ...` / `tv_table.index = ...` mutate in place the object
`tv_table` currently refers to — which, because of the copy, is never the
caller's object. -/
def clean_tv_table_callerView (dirty : DF) : Except String (Cell × DF) × DF :=
  let caller := dirty            -- the caller's object
  let local0 := caller           -- tv_table = dirty_tv_table.copy()
  let local1 := dropNullCols local0
  let local2 := dropNullRows local1
  (match colByLabel local2 (some (Val.num 1)) with
   | .error e => .error e
   | .ok c1 =>
     match c1.head? with
     | none => .error "IndexError: iloc[0] on an empty frame"
     | some name =>
       match local2.data.get? 1 with
       | none => .error "IndexError: iloc[1] out of bounds"
       | some hdr =>
         -- tv_table.columns = tv_table.iloc[1]  (in-place on the copy)
         let local3 : DF := { local2 with cols := hdr }
         match colByLabel local3 (some (Val.str "Day")) with
         | .error e => .error e
         | .ok dayCol =>
           -- tv_table.index = tv_table['Day']  (in-place on the copy)
           let local4 : DF := { local3 with index := dayCol }
           let local5 := ilocDrop local4 2 1
           match dropColByLabel local5 (some (Val.str "Mean")) with
           | .error e => .error e
           | .ok t6 => .ok (name, t6),
   caller)

/-! ## Claims C7 and C10 -/

/-- The Block lacks a usable header: after dropping the all-null columns and
the all-null rows, either no second row exists to be promoted to the column
labels, or that header row contains no cell `Day`, or its tail (the columns
that survive `iloc[2:,1:]`) contains no cell `Mean` to discard. -/
def missingDayOrMean (g : DF) : Prop :=
  match (dropNullRows (dropNullCols g)).data.get? 1 with
  | none => True
  | some hdr =>
    (some (Val.str "Day")) ∉ hdr ∨ (some (Val.str "Mean")) ∉ hdr.drop 1

lemma colPositions_eq_nil {df : DF} {l : Cell} (h : l ∉ df.cols) :
    colPositions df l = [] := by
  rw [colPositions, List.filter_eq_nil_iff]
  intro j hj
  simp only [decide_eq_true_eq]
  intro heq
  apply h
  rw [← heq]
  have hlt : j < df.cols.length := List.mem_range.mp hj
  have hg : df.cols.get? j = some (df.cols.get ⟨j, hlt⟩) := List.get?_eq_get hlt
  rw [hg, Option.getD_some]
  exact List.get_mem _ _ _

/-- C7: for every block that, after dropping the all-null columns and rows,
has no `Day` column or no `Mean` column (or no header row at all),
`clean_tv_table` fails with an error that propagates to the caller rather
than returning a table. -/
theorem clean_tv_table_missing_day_or_mean_errors (g : DF)
    (h : missingDayOrMean g) : ∃ e, clean_tv_table g = .error e := by
  unfold missingDayOrMean at h
  simp only [clean_tv_table]
  split
  · exact ⟨_, rfl⟩
  · split
    · exact ⟨_, rfl⟩
    · split
      · exact ⟨_, rfl⟩
      next hdr hhdr =>
        rw [hhdr] at h
        rcases h with hday | hmean
        · split
          · exact ⟨_, rfl⟩
          next dayCol hday2 =>
            exfalso
            rw [colByLabel, colPositions_eq_nil hday] at hday2
            exact Except.noConfusion hday2
        · split
          · exact ⟨_, rfl⟩
          next dayCol hday2 =>
            split
            · exact ⟨_, rfl⟩
            next t6 hmean2 =>
              exfalso
              rw [dropColByLabel, colPositions_eq_nil hmean] at hmean2
              simp at hmean2

/-- C7 witness: a concrete block (title row and a header row naming
individuals but lacking both `Day` and `Mean`) on which `clean_tv_table`
errors. -/
theorem clean_tv_table_missing_day_or_mean_errors_witness :
    ∃ e, clean_tv_table
      ⟨[some (Val.num 0), some (Val.num 1), some (Val.num 2)],
       [some (Val.num 0), some (Val.num 1), some (Val.num 2)],
       [[none, some (Val.str "Vehicle"), none],
        [none, some (Val.str "Time"), some (Val.str "A")],
        [none, some (Val.num 1), some (Val.num 100)]]⟩ = .error e :=
  clean_tv_table_missing_day_or_mean_errors _ (by
    show some (Val.str "Day") ∉ [some (Val.str "Time"), some (Val.str "A")] ∨
      some (Val.str "Mean") ∉ [some (Val.str "A")]
    exact Or.inl (by decide))

/-- C10: `clean_tv_table` operates on a copy of its argument: in the
caller-view transcription (which tracks which object every statement of the
body targets, the attribute assignments mutating the copy in place), the
caller's grid after the call is exactly the input grid, and the returned value
is that of the pure function. -/
theorem clean_tv_table_preserves_input (g : DF) :
    clean_tv_table_callerView g = (clean_tv_table g, g) := rfl

end SurvivalVolume
